import Mathlib

/-!
Verification of the product-image resolution pipeline of the `mirror`
repository.

The pipeline lives in two near-duplicate TypeScript modules:
`src/utils/skinAnalysis.ts` (skin flow, namespace `SkinAnalysis` below) and
the hair-flow module (namespace `HairAnalysis` below).  JavaScript strings
are embedded as `List Char`; network and filesystem effects are embedded as
explicit oracle inputs (the outcome of each `axios` / `expo-file-system`
call) and an explicit `World` state threaded through the functions, so that
every definition is executable and its control flow can be diffed line by
line against the TypeScript source.
-/

namespace JsStr

/-- JavaScript-style boolean prefix test (`String.prototype.startsWith`). -/
def hasPre : List Char → List Char → Bool
  | _, [] => true
  | [], _ :: _ => false
  | c :: cs, d :: ds => c = d && hasPre cs ds

/-- JavaScript `String.prototype.includes`: does `needle` occur as a
contiguous substring of `hay`? -/
def includesSub (hay needle : List Char) : Bool :=
  (hay.tails).any (fun t => hasPre t needle)

/-- JavaScript `String.prototype.endsWith`. -/
def hasSuf (hay needle : List Char) : Bool :=
  hasPre hay.reverse needle.reverse

/-- JavaScript truthiness / `||` default for an optional string field:
`a || b` yields `a` when `a` is present and non-empty, else `b`. -/
def jsOr (a : Option (List Char)) (b : List Char) : List Char :=
  match a with
  | some s => if s.isEmpty then b else s
  | none => b

/-- Truthiness of an optional string (`undefined`, `null` and `""` are
falsy). -/
def truthy (a : Option (List Char)) : Bool :=
  match a with
  | some s => !s.isEmpty
  | none => false

/-- JavaScript `String.prototype.trim` (ASCII whitespace suffices for the
strings this code handles). -/
def trimJS (s : List Char) : List Char :=
  (s.dropWhile Char.isWhitespace).reverse.dropWhile Char.isWhitespace |>.reverse

/-- JavaScript `String.prototype.toLowerCase` (the categories handled are
ASCII, where JS and `Char.toLower` agree). -/
def toLowerJS (s : List Char) : List Char :=
  s.map Char.toLower

/-- `Array.from(new Set(xs))`: deduplication keeping the first occurrence
of each element, in insertion order. -/
def dedupAux (seen : List (List Char)) : List (List Char) → List (List Char)
  | [] => []
  | x :: xs => if x ∈ seen then dedupAux seen xs else x :: dedupAux (x :: seen) xs

/-- `Array.from(new Set(xs))` with an empty initial set. -/
def dedup (xs : List (List Char)) : List (List Char) :=
  dedupAux [] xs

/-- Decimal digit character, as produced by JavaScript number-to-string
conversion. -/
def digitCh (n : Nat) : Char :=
  match n with
  | 0 => '0' | 1 => '1' | 2 => '2' | 3 => '3' | 4 => '4'
  | 5 => '5' | 6 => '6' | 7 => '7' | 8 => '8' | _ => '9'

/-- Fuel-driven decimal rendering helper (structural recursion so that the
kernel can evaluate it); the fuel bounds the number of digits. -/
def natCharsAux : Nat → Nat → List Char
  | 0, _ => []
  | fuel + 1, n =>
    if n < 10 then [digitCh n]
    else natCharsAux fuel (n / 10) ++ [digitCh (n % 10)]

/-- Decimal rendering of a natural number, as JavaScript template literals
render an integral `Date.now()` value. -/
def natChars (n : Nat) : List Char :=
  natCharsAux (n + 1) n

/-- Numeric value of a decimal digit character. -/
def digitVal (c : Char) : Nat := c.toNat - '0'.toNat

/-- Left fold reading decimal digit characters back into a number; used
only to prove `natChars` injective. -/
def charsVal (a : Nat) (l : List Char) : Nat :=
  l.foldl (fun acc c => acc * 10 + digitVal c) a

end JsStr

namespace SkinAnalysis

open JsStr

/-- Stand-in constant for the device-specific `FileSystem.documentDirectory`
root; the proofs use only its structure (a fixed non-empty prefix). -/
def documentDirectory : List Char := "file:///document-directory/".data

/-- The `products/` directory every resolved image is written under
(`FileSystem.documentDirectory + 'products/'`). -/
def productsDir : List Char := documentDirectory ++ "products/".data

/-- Explicit device state: the module-level `BACKGROUND_REMOVAL_AVAILABLE`
flag, the set of created directories, the written files (path, contents)
and the current `Date.now()` value. -/
structure World where
  bgAvailable : Bool
  dirs : List (List Char)
  files : List (List Char × List Char)
  now : Nat
deriving DecidableEq

/-- `FileSystem.makeDirectoryAsync(dir, { intermediates: true }).catch(() => {})`
for the products directory: create-if-absent, errors swallowed. -/
def ensureDirW (w : World) : World :=
  if productsDir ∈ w.dirs then w else { w with dirs := productsDir :: w.dirs }

/-- `FileSystem.writeAsStringAsync(path, data, ...)`. -/
def writeFile (w : World) (path content : List Char) : World :=
  { w with files := (path, content) :: w.files }

/-- Local path `${documentDirectory}products/bg_removed_${Date.now()}.png`
built by `removeImageBackground`. -/
def bgRemovedPath (now : Nat) : List Char :=
  productsDir ++ "bg_removed_".data ++ natChars now ++ ".png".data

/-- Local path `${directory}product_${Date.now()}.jpg` built by
`downloadProductImage`'s direct-download fallback. -/
def productDownloadPath (now : Nat) : List Char :=
  productsDir ++ "product_".data ++ natChars now ++ ".jpg".data

/-- Outcome of the `axios.post` to the background-removal service: either a
response (its status, the body's `success` flag, and `base64Image`), or a
thrown error, tagged with whether it is connection-level
(`ECONNREFUSED` / `ECONNABORTED` / `Network Error`). -/
inductive AxiosPostResult where
  | resp (status : Nat) (success : Bool) (base64Image : List Char)
  | err (isConn : Bool)
deriving DecidableEq

/-- Outcome of the `axios.get` health probe. -/
inductive AxiosGetResult where
  | resp (status : Nat)
  | err (isConn : Bool)
deriving DecidableEq

/-- `\w` of the data-URI prefix regex. -/
def isWordChar (c : Char) : Bool := c.isAlphanum || c = '_'

/-- `base64Image.replace(/^data:image\/\w+;base64,/, '')`: strip a leading
data-URI prefix when present, else return the string unchanged. -/
def stripDataUriPre (s : List Char) : List Char :=
  if hasPre s "data:image/".data then
    let rest := s.drop "data:image/".data.length
    let word := rest.takeWhile isWordChar
    let tail := rest.drop word.length
    if !word.isEmpty && hasPre tail ";base64,".data then
      tail.drop ";base64,".data.length
    else s
  else s

/-- Result of one `removeImageBackground` call: the returned value, the
world after the call, and whether the network request was attempted. -/
structure BgCallResult where
  result : Option (List Char)
  world : World
  attempted : Bool
deriving DecidableEq

/-- `removeImageBackground` from `skinAnalysis.ts`: short-circuits to null
when `BACKGROUND_REMOVAL_AVAILABLE` is false; on HTTP 200 with the success
flag it strips the data-URI prefix and persists the payload under
`products/`; a thrown connection-level error flips the availability flag;
any other failure returns null leaving the flag unchanged. -/
def removeImageBackground (imageUrl : List Char) (net : AxiosPostResult) (w : World) :
    BgCallResult :=
  if !w.bgAvailable then
    { result := none, world := w, attempted := false }
  else
    match net with
    | .resp status success base64Image =>
      if status == 200 && success then
        let imagePath := bgRemovedPath w.now
        let w1 := ensureDirW w
        let base64Data := stripDataUriPre base64Image
        let w2 := writeFile w1 imagePath base64Data
        { result := some imagePath, world := w2, attempted := true }
      else
        { result := none, world := w, attempted := true }
    | .err isConn =>
      if isConn then
        { result := none, world := { w with bgAvailable := false }, attempted := true }
      else
        { result := none, world := w, attempted := true }

/-- `checkServerHealth` from `skinAnalysis.ts`: a 200 response resets the
availability flag to true; a non-200 response or a thrown error sets it to
false. -/
def checkServerHealth (net : AxiosGetResult) (w : World) : Bool × World :=
  match net with
  | .resp status =>
    if status == 200 then (true, { w with bgAvailable := true })
    else (false, { w with bgAvailable := false })
  | .err _ => (false, { w with bgAvailable := false })

/-- An outcome of the background-removal POST that fails at the HTTP
level: a response missing the success flag or with a non-200 status, or a
thrown error that is not connection-level (axios turns plain non-2xx
responses into such errors). -/
def httpLevelFailure : AxiosPostResult → Bool
  | .resp status success _ => !(status == 200 && success)
  | .err isConn => !isConn

/-- One observable interaction with the background-removal service. -/
inductive Event where
  | removeCall (url : List Char) (net : AxiosPostResult)
  | healthCall (net : AxiosGetResult)
deriving DecidableEq

/-- Per-event observation: whether it was a `removeImageBackground` call,
the value it returned, and whether it attempted the network request. -/
structure EventLog where
  isRemove : Bool
  result : Option (List Char)
  attempted : Bool
deriving DecidableEq

/-- Does the event reset availability, i.e. is it a health probe answered
with HTTP 200? -/
def healthSuccess : Event → Bool
  | .healthCall (.resp status) => status == 200
  | _ => false

/-- Run one event against the world. -/
def stepEvent (w : World) : Event → World × EventLog
  | .removeCall url net =>
    let r := removeImageBackground url net w
    (r.world, { isRemove := true, result := r.result, attempted := r.attempted })
  | .healthCall net =>
    let (ok, w') := checkServerHealth net w
    (w', { isRemove := false, result := none, attempted := ok })

/-- Run a sequence of service interactions, collecting the per-event logs
in order. -/
def runTrace (w : World) : List Event → World × List EventLog
  | [] => (w, [])
  | e :: es =>
    let (w', log) := stepEvent w e
    let (wf, logs) := runTrace w' es
    (wf, log :: logs)

end SkinAnalysis

namespace SkinAnalysis

open JsStr

/-- JavaScript `String.prototype.indexOf` for a single character: the index
of its first occurrence, or `-1`. -/
def jsIndexOf (l : List Char) (c : Char) : Int :=
  match l with
  | [] => -1
  | x :: xs =>
    if x = c then 0
    else
      let r := jsIndexOf xs c
      if r = -1 then -1 else r + 1

/-- JavaScript `String.prototype.lastIndexOf` for a single character: the
index of its last occurrence, or `-1`. -/
def jsLastIndexOf (l : List Char) (c : Char) : Int :=
  match l with
  | [] => -1
  | x :: xs =>
    let r := jsLastIndexOf xs c
    if r ≠ -1 then r + 1 else if x = c then 0 else -1

/-- A recommendation object as decoded by `JSON.parse`, restricted to the
two fields `parseGeminiResponse` post-processes.  The outer `Option` is key
presence (`'url' in product`), the inner one distinguishes `null` from a
string value. -/
structure RawRec where
  url : Option (Option (List Char))
  product_url : Option (Option (List Char))
deriving DecidableEq

/-- The per-product normalization loop of `parseGeminiResponse`: copy
`product_url` into a missing `url` field, or default a missing `url` to
`null`. -/
def ensureUrlField (p : RawRec) : RawRec :=
  if p.product_url.isSome && !p.url.isSome then { p with url := p.product_url }
  else if !p.url.isSome then { p with url := some none }
  else p

/-- `parseGeminiResponse` from `skinAnalysis.ts`.  `parseJson` is the
`JSON.parse` oracle (`none` models a thrown SyntaxError, caught by the
surrounding `try`). -/
def parseGeminiResponse (parseJson : List Char → Option (List RawRec))
    (responseText : List Char) : Option (List RawRec) :=
  let jsonStart := jsIndexOf responseText '['
  let jsonEnd := jsLastIndexOf responseText ']' + 1
  if jsonStart ≥ 0 ∧ jsonEnd > jsonStart then
    let jsonStr := (responseText.drop jsonStart.toNat).take (jsonEnd - jsonStart).toNat
    match parseJson jsonStr with
    | some recommendations => some (recommendations.map ensureUrlField)
    | none => none
  else none

/-- Hexadecimal digit used by percent-encoding. -/
def hexDigit (n : Nat) : Char :=
  match n with
  | 0 => '0' | 1 => '1' | 2 => '2' | 3 => '3' | 4 => '4' | 5 => '5' | 6 => '6'
  | 7 => '7' | 8 => '8' | 9 => '9' | 10 => 'A' | 11 => 'B' | 12 => 'C'
  | 13 => 'D' | 14 => 'E' | _ => 'F'

/-- Characters `encodeURIComponent` leaves unescaped. -/
def uriUnreserved (c : Char) : Bool :=
  c.isAlphanum || c = '-' || c = '_' || c = '.' || c = '!' || c = '~' ||
  c = '*' || c.toNat = 39 || c = '(' || c = ')'

/-- JavaScript `encodeURIComponent`: unreserved characters pass through,
everything else is percent-encoded byte-wise over its UTF-8 encoding. -/
def encodeURIComponentJS (s : List Char) : List Char :=
  s.flatMap fun c =>
    if uriUnreserved c then [c]
    else (String.utf8EncodeChar c).flatMap fun b =>
      ['%', hexDigit (b.toNat / 16), hexDigit (b.toNat % 16)]

/-- A recommendation object as consumed by `processGeminiRecommendations`
(the fields that function reads). -/
structure SkinRec where
  category : Option (List Char)
  name : Option (List Char)
  brand : Option (List Char)
  price : Option (List Char)
  reason : Option (List Char)
  url : Option (List Char)
  product_url : Option (List Char)
  image_url : Option (List Char)
deriving DecidableEq

/-- `findImageForProduct` from `skinAnalysis.ts`: prefer a non-blank `url`,
then a non-blank `product_url`, else a placeholder URL embedding brand and
name. -/
def findImageForProduct (product : SkinRec) : List Char :=
  if truthy product.url && !(trimJS (product.url.getD [])).isEmpty then
    product.url.getD []
  else if truthy product.product_url && !(trimJS (product.product_url.getD [])).isEmpty then
    product.product_url.getD []
  else
    let brandName := (product.brand).getD []
    let productName := jsOr product.name "Skincare Product".data
    "https://via.placeholder.com/300x300.png?text=".data ++
      encodeURIComponentJS (brandName ++ "+".data ++ productName)

/-- Does the URL match `/\.(jpg|jpeg|png|gif)$/`? -/
def matchesImageExt (url : List Char) : Bool :=
  hasSuf url ".jpg".data || hasSuf url ".jpeg".data ||
  hasSuf url ".png".data || hasSuf url ".gif".data

/-- Outcome of the LookFantastic product-page fetch inside
`downloadProductImage`: a response status together with the list `imgUrls`
produced by the three in-page pattern scans, or a thrown error. -/
inductive PageOutcome where
  | resp (status : Nat) (imgUrls : List (List Char))
  | thrown
deriving DecidableEq

/-- Network oracle for one `downloadProductImage` call. -/
structure SkinOracle where
  page : PageOutcome
  bg : AxiosPostResult
  dlOk : Bool
deriving DecidableEq

/-- The `directImageUrl` computed by the first half of
`downloadProductImage`: for a LookFantastic page URL without an image
extension, the first scanned in-page image URL when the page fetch
succeeds with candidates, otherwise the original URL. -/
def directImageUrlOf (imageUrl : List Char) (o : SkinOracle) : List Char :=
  if includesSub imageUrl "lookfantastic.com".data && !matchesImageExt imageUrl then
    match o.page with
    | .resp 200 (u :: _) => u
    | _ => imageUrl
  else imageUrl

/-- `downloadProductImage` from `skinAnalysis.ts`: resolve a direct image
URL, attempt background removal on it, and on failure fall back to a
direct download persisted as `product_${Date.now()}.jpg`; `null` only when
that download also fails. -/
def downloadProductImage (imageUrl : List Char) (o : SkinOracle) (w : World) :
    Option (List Char) × World :=
  let directImageUrl := directImageUrlOf imageUrl o
  let (bgResult, w1) :=
    if !directImageUrl.isEmpty then
      let r := removeImageBackground directImageUrl o.bg w
      (r.result, r.world)
    else (none, w)
  match bgResult with
  | some p => (some p, w1)
  | none =>
    let filePath := productDownloadPath w1.now
    let w2 := ensureDirW w1
    if o.dlOk then (some filePath, writeFile w2 filePath directImageUrl)
    else (none, w2)

/-- The three output buckets of the skin-flow orchestrator. -/
inductive RCat where
  | cleansers
  | moisturizers
  | treatments
deriving DecidableEq

/-- `resolvedCategory.slice(0, -1)`: the singular bucket name. -/
def catSingular : RCat → List Char
  | .cleansers => "cleanser".data
  | .moisturizers => "moisturizer".data
  | .treatments => "treatment".data

/-- `generateUniqueId` from `skinAnalysis.ts`. -/
def generateUniqueId (kind : List Char) (index : Nat) : Nat :=
  if kind = "cleanser".data then 1000 + index
  else if kind = "moisturizer".data then 2000 + index
  else if kind = "treatment".data then 3000 + index
  else 9000 + index

/-- The category-bucketing head of the `processGeminiRecommendations` loop:
`(product.category || '').toLowerCase()` matched by substring. -/
def resolvedCategory (category : Option (List Char)) : RCat :=
  let c := toLowerJS (jsOr category [])
  if includesSub c "clean".data then .cleansers
  else if includesSub c "moistur".data || includesSub c "cream".data then .moisturizers
  else .treatments

/-- The output product record of the skin flow. -/
structure ProductRecommendation where
  id : Nat
  name : List Char
  brand : List Char
  description : List Char
  price : List Char
  image : List Char
  localImage : Option (List Char)
  reason : List Char
  url : List Char
deriving DecidableEq

/-- The partitioned result of the skin flow. -/
structure Recommendations where
  cleansers : List ProductRecommendation
  moisturizers : List ProductRecommendation
  treatments : List ProductRecommendation
deriving DecidableEq

/-- The bucket selected by a resolved category. -/
def bucketOf (r : Recommendations) : RCat → List ProductRecommendation
  | .cleansers => r.cleansers
  | .moisturizers => r.moisturizers
  | .treatments => r.treatments

/-- `result[resolvedCategory].push(formattedProduct)`. -/
def pushProduct (r : Recommendations) (cat : RCat) (p : ProductRecommendation) :
    Recommendations :=
  match cat with
  | .cleansers => { r with cleansers := r.cleansers ++ [p] }
  | .moisturizers => { r with moisturizers := r.moisturizers ++ [p] }
  | .treatments => { r with treatments := r.treatments ++ [p] }

/-- Total number of products across the three buckets. -/
def bucketsTotal (r : Recommendations) : Nat :=
  r.cleansers.length + r.moisturizers.length + r.treatments.length

/-- The `formattedProduct` record built inside the loop of
`processGeminiRecommendations` (before the image download). -/
def formatProduct (product : SkinRec) (cat : RCat) (bucketLen : Nat) :
    ProductRecommendation :=
  { id := generateUniqueId (catSingular cat) (bucketLen + 1)
  , name := (product.name).getD []
  , brand := (product.brand).getD []
  , description := (product.name).getD []
  , price := '$' :: jsOr product.price "0".data
  , image := jsOr product.image_url (findImageForProduct product)
  , localImage := none
  , reason := (product.reason).getD []
  , url := (product.url).getD []
  }

/-- The `for (const product of recommendations)` loop of
`processGeminiRecommendations`, threading the bucket accumulator, the
world, and the `productCount` / `successCount` counters. -/
def processLoop (oracle : Nat → SkinOracle) :
    List SkinRec → Nat → World → Recommendations → Nat → Nat →
      Recommendations × World × Nat × Nat
  | [], _, w, acc, pc, sc => (acc, w, pc, sc)
  | product :: rest, i, w, acc, pc, sc =>
    let resolvedCat := resolvedCategory product.category
    let formatted := formatProduct product resolvedCat (bucketOf acc resolvedCat).length
    let (localImage, w') := downloadProductImage formatted.image (oracle i) w
    match localImage with
    | some l =>
      processLoop oracle rest (i + 1) w'
        (pushProduct acc resolvedCat { formatted with localImage := some l })
        (pc + 1) (sc + 1)
    | none => processLoop oracle rest (i + 1) w' acc (pc + 1) sc

/-- `processGeminiRecommendations` from `skinAnalysis.ts`: returns the
bucketed products plus (`productCount`, `successCount`). -/
def processGeminiRecommendations (recommendations : List SkinRec)
    (oracle : Nat → SkinOracle) (w : World) : Recommendations × World × Nat × Nat :=
  if recommendations.isEmpty then (⟨[], [], []⟩, w, 0, 0)
  else processLoop oracle recommendations 0 w ⟨[], [], []⟩ 0 0

end SkinAnalysis

namespace HairAnalysis

open JsStr

/-- Outcome of the LookFantastic search-page fetch in
`searchProductOnLookFantastic`: a response status together with the match
lists of the three product-link regex scans (in scan order), or a thrown
error. -/
inductive SearchFetch where
  | resp (status : Nat) (p1 p2 p3 : List (List Char))
  | thrown
deriving DecidableEq

/-- Outcome of the product-detail-page fetch in
`getProductImageFromLookFantastic`: a response status together with the
(at most one) main-carousel match and the match lists of the three global
regex scans, or a thrown error. -/
inductive ImageFetch where
  | resp (status : Nat) (mainMatch : Option (List Char)) (p2 p3 p4 : List (List Char))
  | thrown
deriving DecidableEq

/-- Outcome of the Google image-search fetch in `searchProductOnGoogle`:
a response status together with the matches of the image-URL regex
(`html.match` returning `null` is the empty list), or a thrown error. -/
inductive GoogleFetch where
  | resp (status : Nat) (matchList : List (List Char))
  | thrown
deriving DecidableEq

/-- Outcome of the `axios.post` to the background-removal service in
`downloadAndProcessImage`: the body's `success` flag and `base64Image`
string, or a thrown error. -/
inductive BgApiOutcome where
  | resp (success : Bool) (base64Image : List Char)
  | thrown
deriving DecidableEq

/-- Relative-to-absolute resolution applied to every collected product
URL: prefix the retailer origin unless the URL already starts with
`http`. -/
def makeAbsoluteLF (url : List Char) : List Char :=
  if hasPre url "http".data then url
  else "https://www.lookfantastic.com".data ++ url

/-- `searchProductOnLookFantastic` from the hair-flow module: collect the
candidate product URLs of the three pattern scans, deduplicate, resolve to
absolute, and return the first candidate; null on a non-200 status, a
thrown request, or no match. -/
def searchProductOnLookFantastic (o : SearchFetch) : Option (List Char) :=
  match o with
  | .thrown => none
  | .resp status p1 p2 p3 =>
    if status ≠ 200 then none
    else
      let productUrls := p1 ++ p2 ++ p3
      let productUrls := dedup productUrls
      let productUrls := productUrls.map makeAbsoluteLF
      match productUrls with
      | u :: _ => some u
      | [] => none

/-- The candidate filter of `getProductImageFromLookFantastic`: drop URLs
containing `icon`, `thumb` or `logo`. -/
def keepImageUrl (url : List Char) : Bool :=
  !(includesSub url "icon".data) && !(includesSub url "thumb".data) &&
  !(includesSub url "logo".data)

/-- `getProductImageFromLookFantastic` from the hair-flow module: collect
the candidate image URLs of the four ordered patterns, deduplicate, filter
out `icon` / `thumb` / `logo` URLs, and return the first survivor; null on
a non-200 status, a thrown request, or no survivor. -/
def getProductImageFromLookFantastic (o : ImageFetch) : Option (List Char) :=
  match o with
  | .thrown => none
  | .resp status mainMatch p2 p3 p4 =>
    if status ≠ 200 then none
    else
      let img_urls := (match mainMatch with | some u => [u] | none => []) ++ p2 ++ p3 ++ p4
      let filteredUrls := (dedup img_urls).filter keepImageUrl
      match filteredUrls with
      | u :: _ => some u
      | [] => none

/-- The candidate filter of `searchProductOnGoogle`: drop thumbnails,
icons, `small` variants and Google UI assets. -/
def keepGoogleUrl (url : List Char) : Bool :=
  !(includesSub url "icon".data || includesSub url "thumb".data ||
    includesSub url "small".data) &&
  !(includesSub url "google.com".data)

/-- `searchProductOnGoogle` from the hair-flow module: null on a non-200
status, a thrown request or no regex match, else the first match surviving
the thumbnail/UI filter. -/
def searchProductOnGoogle (o : GoogleFetch) : Option (List Char) :=
  match o with
  | .thrown => none
  | .resp status matchList =>
    if status ≠ 200 then none
    else if matchList.isEmpty then none
    else
      match matchList.filter keepGoogleUrl with
      | u :: _ => some u
      | [] => none

/-- Result of `findProductImageFallback`, extended with the number of
times `searchProductOnGoogle` was invoked. -/
structure FPIResult where
  imageUrl : Option (List Char)
  productUrl : Option (List Char)
  googleCalls : Nat
deriving DecidableEq

/-- `findProductImageFallback` from the hair-flow module: LookFantastic
first (search, then in-page image extraction); only when that tier yields
no image is the Google image search invoked, once. -/
def findProductImageFallback (oSearch : SearchFetch) (oImage : ImageFetch)
    (oGoogle : GoogleFetch) : FPIResult :=
  match searchProductOnLookFantastic oSearch with
  | some productUrl =>
    match getProductImageFromLookFantastic oImage with
    | some imageUrl => ⟨some imageUrl, some productUrl, 0⟩
    | none =>
      match searchProductOnGoogle oGoogle with
      | some googleImageUrl => ⟨some googleImageUrl, none, 1⟩
      | none => ⟨none, none, 1⟩
  | none =>
    match searchProductOnGoogle oGoogle with
    | some googleImageUrl => ⟨some googleImageUrl, none, 1⟩
    | none => ⟨none, none, 1⟩

/-- `findProductImage` from the hair-flow module (delegates directly to the
client-side fallback). -/
def findProductImage (oSearch : SearchFetch) (oImage : ImageFetch)
    (oGoogle : GoogleFetch) : FPIResult :=
  findProductImageFallback oSearch oImage oGoogle

/-- `downloadAndProcessImage` from the hair-flow module: on a successful
background-removal response return the base64 payload, otherwise fall back
to returning the original image URL; nothing is downloaded or written. -/
def downloadAndProcessImage (imageUrl : List Char) (productId : Nat)
    (o : BgApiOutcome) : Option (List Char) :=
  match o with
  | .resp success base64Image =>
    if success && !base64Image.isEmpty then some base64Image
    else some imageUrl
  | .thrown => some imageUrl

/-- Network oracle for one hair-flow product resolution. -/
structure HairOracle where
  lfSearch : SearchFetch
  lfImage : ImageFetch
  google : GoogleFetch
  bg : BgApiOutcome
deriving DecidableEq

/-- A hair recommendation object returned by the Gemini call (the fields
`processRecommendations` reads). -/
structure HairRec where
  name : Option (List Char)
  brand : Option (List Char)
  type' : Option (List Char)
  price_estimate : Option (List Char)
  reason : Option (List Char)
deriving DecidableEq

/-- The output product record of the hair flow. -/
structure ProductRecommendation where
  id : Nat
  name : List Char
  brand : List Char
  type' : List Char
  price : List Char
  image : List Char
  localImage : Option (List Char)
  reason : List Char
  url : Option (List Char)
deriving DecidableEq

/-- `generateUniqueId` from the hair-flow module. -/
def generateUniqueId (index : Nat) : Nat := 3000 + index

/-- The body of the `for (let i = 0; ...)` loop of
`processRecommendations` applied to the recommendation at index `i`. -/
def processOneRec (rec : HairRec) (i : Nat) (o : HairOracle) : ProductRecommendation :=
  let id := generateUniqueId i
  let f := findProductImage o.lfSearch o.lfImage o.google
  let localImage : Option (List Char) :=
    match f.imageUrl with
    | some u => downloadAndProcessImage u id o.bg
    | none => none
  let processedRec : ProductRecommendation :=
    { id := id
    , name := jsOr rec.name "Unknown Product".data
    , brand := jsOr rec.brand "Unknown Brand".data
    , type' := jsOr rec.type' "Unknown Type".data
    , price := '$' :: jsOr rec.price_estimate "??".data
    , image := jsOr f.imageUrl "placeholder".data
    , localImage := none
    , reason := jsOr rec.reason "Recommended for your hair type".data
    , url := match f.productUrl with
             | some p => if p.isEmpty then none else some p
             | none => none
    }
  match localImage with
  | some l => if l.isEmpty then processedRec else { processedRec with localImage := some l }
  | none => processedRec

/-- The `for (let i = 0; ...)` loop of `processRecommendations`. -/
def processRecsGo (oracle : Nat → HairOracle) :
    List HairRec → Nat → List ProductRecommendation
  | [], _ => []
  | rec :: rest, i => processOneRec rec i (oracle i) :: processRecsGo oracle rest (i + 1)

/-- `processRecommendations` from the hair-flow module: every
recommendation is processed and appended to the output list (none is ever
dropped). -/
def processRecommendations (recommendations : List HairRec)
    (oracle : Nat → HairOracle) : List ProductRecommendation :=
  processRecsGo oracle recommendations 0

end HairAnalysis

/-! ## Supporting lemmas -/

namespace JsStr

theorem digitVal_digitCh (n : Nat) (h : n < 10) : digitVal (digitCh n) = n := by
  interval_cases n <;> decide

theorem charsVal_append (a : Nat) (l₁ l₂ : List Char) :
    charsVal a (l₁ ++ l₂) = charsVal (charsVal a l₁) l₂ := by
  simp [charsVal, List.foldl_append]

theorem charsVal_natCharsAux :
    ∀ (fuel n a : Nat), n < 10 ^ fuel →
      charsVal a (natCharsAux fuel n) = a * 10 ^ (natCharsAux fuel n).length + n := by
  intro fuel
  induction fuel with
  | zero =>
    intro n a hn
    have : n = 0 := by simpa using hn
    subst this
    simp [natCharsAux, charsVal]
  | succ fuel ih =>
    intro n a hn
    by_cases h : n < 10
    · rw [natCharsAux, if_pos h]
      simp [charsVal, digitVal_digitCh n h]
    · rw [natCharsAux, if_neg h]
      have hdiv : n / 10 < 10 ^ fuel := by
        rw [Nat.div_lt_iff_lt_mul (by norm_num)]
        calc n < 10 ^ (fuel + 1) := hn
        _ = 10 ^ fuel * 10 := by rw [pow_succ]
      rw [charsVal_append, ih (n / 10) a hdiv]
      simp only [charsVal, List.foldl, List.length_append, List.length_cons, List.length_nil]
      have hm : n % 10 < 10 := Nat.mod_lt _ (by norm_num)
      rw [digitVal_digitCh _ hm]
      rw [pow_succ]
      have := Nat.div_add_mod n 10
      ring_nf
      omega

theorem charsVal_natChars (a n : Nat) :
    charsVal a (natChars n) = a * 10 ^ (natChars n).length + n := by
  have hbound : n < 10 ^ (n + 1) := by
    calc n < 10 ^ n := Nat.lt_pow_self (by norm_num) n
    _ ≤ 10 ^ (n + 1) := Nat.pow_le_pow_right (by norm_num) (Nat.le_succ n)
  exact charsVal_natCharsAux (n + 1) n a hbound

theorem natChars_injective : Function.Injective natChars := by
  intro m n h
  have hm := charsVal_natChars 0 m
  have hn := charsVal_natChars 0 n
  rw [h] at hm
  omega

theorem dedupAux_filter_head (p : List Char → Bool) :
    ∀ (l seen : List (List Char)),
      ((dedupAux seen l).filter p).head? = (l.filter (fun x => p x && !(decide (x ∈ seen)))).head? := by
  intro l
  induction l with
  | nil => intro seen; rfl
  | cons x xs ih =>
    intro seen
    by_cases hx : x ∈ seen
    · have h1 : (p x && !(decide (x ∈ seen))) = false := by simp [hx]
      rw [List.filter_cons, h1]
      simp only [dedupAux, if_pos hx]
      rw [ih]
      simp
    · simp only [dedupAux, if_neg hx]
      rw [List.filter_cons, List.filter_cons]
      by_cases hp : p x
      · have h1 : (p x && !(decide (x ∈ seen))) = true := by simp [hp, hx]
        simp [hp, h1, hx]
      · have h1 : (p x && !(decide (x ∈ seen))) = false := by simp [hp]
        simp only [hp, h1, Bool.false_eq_true, if_false]
        rw [ih]
        congr 1
        apply List.filter_congr
        intro y _
        by_cases hyx : y = x
        · subst hyx; simp [hp]
        · simp [hyx]

theorem dedup_filter_head (p : List Char → Bool) (l : List (List Char)) :
    ((dedup l).filter p).head? = (l.filter p).head? := by
  rw [dedup, dedupAux_filter_head]
  congr 1
  apply List.filter_congr
  intro y _
  simp

theorem dedup_head (l : List (List Char)) : (dedup l).head? = l.head? := by
  have := dedup_filter_head (fun _ => true) l
  simpa using this

theorem dedupAux_nodup (l : List (List Char)) :
    ∀ seen, (dedupAux seen l).Nodup ∧ ∀ y ∈ dedupAux seen l, y ∉ seen := by
  induction l with
  | nil => intro seen; simp [dedupAux]
  | cons x xs ih =>
    intro seen
    by_cases hx : x ∈ seen
    · simp only [dedupAux, hx, if_pos]
      exact ih seen
    · simp only [dedupAux, hx, if_neg, not_false_iff]
      obtain ⟨hnd, hni⟩ := ih (x :: seen)
      constructor
      · refine List.nodup_cons.mpr ⟨?_, hnd⟩
        intro hmem
        exact (hni x hmem) (List.mem_cons_self x seen)
      · intro y hy
        rcases List.mem_cons.mp hy with h | h
        · subst h; exact hx
        · intro hys
          exact (hni y h) (List.mem_cons_of_mem x hys)

theorem dedup_nodup (l : List (List Char)) : (dedup l).Nodup :=
  (dedupAux_nodup l []).1

end JsStr

namespace SkinAnalysis

open JsStr

theorem runTrace_unavailable (es : List Event) :
    ∀ (w : World), w.bgAvailable = false → (∀ e ∈ es, healthSuccess e = false) →
      (runTrace w es).1.bgAvailable = false ∧
      ∀ log ∈ (runTrace w es).2, log.isRemove = true → log.result = none ∧ log.attempted = false := by
  induction es with
  | nil => intro w hw _; simpa [runTrace] using hw
  | cons e es ih =>
    intro w hw hns
    have hne : healthSuccess e = false := hns e (List.mem_cons_self e es)
    have hstep : (stepEvent w e).1.bgAvailable = false ∧
        ((stepEvent w e).2.isRemove = true →
          (stepEvent w e).2.result = none ∧ (stepEvent w e).2.attempted = false) := by
      cases e with
      | removeCall url net =>
        simp [stepEvent, removeImageBackground, hw]
      | healthCall net =>
        cases net with
        | resp status =>
          have : (status == 200) = false := by simpa [healthSuccess] using hne
          simp [stepEvent, checkServerHealth, this]
        | err isConn => simp [stepEvent, checkServerHealth]
    have hrest := ih (stepEvent w e).1 hstep.1 (fun e' he' => hns e' (List.mem_cons_of_mem e he'))
    constructor
    · simpa [runTrace] using hrest.1
    · intro log hlog
      simp only [runTrace] at hlog
      rcases List.mem_cons.mp hlog with h | h
      · subst h; exact hstep.2
      · exact hrest.2 log h



theorem productsDir_ne_nil : productsDir ≠ [] := by decide

theorem bgRemovedPath_ne_nil (t : Nat) : bgRemovedPath t ≠ [] := by
  unfold bgRemovedPath
  exact List.append_ne_nil_of_left_ne_nil productsDir_ne_nil _

theorem productDownloadPath_ne_nil (t : Nat) : productDownloadPath t ≠ [] := by
  unfold productDownloadPath
  exact List.append_ne_nil_of_left_ne_nil productsDir_ne_nil _

theorem removeImageBackground_some (u : List Char) (net : AxiosPostResult) (w : World)
    (l : List Char) (h : (removeImageBackground u net w).result = some l) :
    l = bgRemovedPath w.now := by
  cases hw : w.bgAvailable with
  | false => simp [removeImageBackground, hw] at h
  | true =>
    cases net with
    | resp status success b64 =>
      cases hs : (status == 200 && success) with
      | true =>
        simp [removeImageBackground, hw, hs] at h
        exact h.symm
      | false => simp [removeImageBackground, hw, hs] at h
    | err isConn => cases isConn <;> simp [removeImageBackground, hw] at h

theorem downloadProductImage_some_ne (image : List Char) (o : SkinOracle) (w : World)
    (l : List Char) (h : (downloadProductImage image o w).1 = some l) : l ≠ [] := by
  by_cases hie : (directImageUrlOf image o).isEmpty = true
  · simp only [downloadProductImage, hie, Bool.not_true, Bool.false_eq_true, if_false] at h
    cases hd : o.dlOk with
    | true =>
      simp [hd] at h
      exact h ▸ productDownloadPath_ne_nil w.now
    | false => simp [hd] at h
  · have hie' : (!(directImageUrlOf image o).isEmpty) = true := by
      simp [Bool.not_eq_true'] at hie ⊢; exact hie
    simp only [downloadProductImage, hie', if_true] at h
    cases hr : (removeImageBackground (directImageUrlOf image o) o.bg w).result with
    | some p =>
      simp only [hr] at h
      have hp := removeImageBackground_some _ _ _ _ hr
      have : l = p := by simpa using h.symm
      rw [this, hp]
      exact bgRemovedPath_ne_nil w.now
    | none =>
      simp only [hr] at h
      cases hd : o.dlOk with
      | true =>
        simp [hd] at h
        exact h ▸ productDownloadPath_ne_nil _
      | false => simp [hd] at h

theorem jsOr_ne (a : Option (List Char)) (b : List Char) (hb : b ≠ []) : jsOr a b ≠ [] := by
  cases a with
  | none => exact hb
  | some s =>
    by_cases hs : s.isEmpty = true
    · simpa [jsOr, hs] using hb
    · have : s ≠ [] := by
        cases s with
        | nil => simp at hs
        | cons c cs => exact List.cons_ne_nil c cs
      simpa [jsOr, hs] using this

theorem findImageForProduct_ne (product : SkinRec) : findImageForProduct product ≠ [] := by
  unfold findImageForProduct
  split_ifs with h1 h2
  · have : truthy product.url = true := (Bool.and_eq_true _ _ |>.mp h1).1
    cases hu : product.url with
    | none => rw [hu] at this; simp [truthy] at this
    | some s =>
      rw [hu] at this
      simp only [truthy, Bool.not_eq_true'] at this
      cases s with
      | nil => simp at this
      | cons c cs => simp [hu]
  · have : truthy product.product_url = true := (Bool.and_eq_true _ _ |>.mp h2).1
    cases hu : product.product_url with
    | none => rw [hu] at this; simp [truthy] at this
    | some s =>
      rw [hu] at this
      simp only [truthy, Bool.not_eq_true'] at this
      cases s with
      | nil => simp at this
      | cons c cs => simp [hu]
  · exact List.append_ne_nil_of_left_ne_nil (by decide) _

theorem bucketsTotal_push (r : Recommendations) (cat : RCat) (p : ProductRecommendation) :
    bucketsTotal (pushProduct r cat p) = bucketsTotal r + 1 := by
  cases cat <;> simp [pushProduct, bucketsTotal] <;> omega

theorem mem_pushProduct (r : Recommendations) (cat : RCat) (p q : ProductRecommendation)
    (h : q ∈ (pushProduct r cat p).cleansers ∨ q ∈ (pushProduct r cat p).moisturizers ∨
      q ∈ (pushProduct r cat p).treatments) :
    (q ∈ r.cleansers ∨ q ∈ r.moisturizers ∨ q ∈ r.treatments) ∨ q = p := by
  cases cat <;> simp [pushProduct] at h <;> tauto

theorem processLoop_spec (oracle : Nat → SkinOracle) :
    ∀ (recs : List SkinRec) (i : Nat) (w : World) (acc : Recommendations) (pc sc : Nat),
      (∀ p, p ∈ acc.cleansers ∨ p ∈ acc.moisturizers ∨ p ∈ acc.treatments →
        ∃ l, p.localImage = some l ∧ l ≠ []) →
      (∀ p, p ∈ (processLoop oracle recs i w acc pc sc).1.cleansers ∨
            p ∈ (processLoop oracle recs i w acc pc sc).1.moisturizers ∨
            p ∈ (processLoop oracle recs i w acc pc sc).1.treatments →
          ∃ l, p.localImage = some l ∧ l ≠ []) ∧
      (processLoop oracle recs i w acc pc sc).2.2.1 = pc + recs.length ∧
      bucketsTotal (processLoop oracle recs i w acc pc sc).1 + sc
        = bucketsTotal acc + (processLoop oracle recs i w acc pc sc).2.2.2 := by
  intro recs
  induction recs with
  | nil =>
    intro i w acc pc sc hacc
    exact ⟨hacc, rfl, rfl⟩
  | cons product rest ih =>
    intro i w acc pc sc hacc
    rcases hdl : downloadProductImage
        (formatProduct product (resolvedCategory product.category)
          (bucketOf acc (resolvedCategory product.category)).length).image (oracle i) w
      with ⟨localImage, w'⟩
    cases localImage with
    | some l =>
      have hl : l ≠ [] :=
        downloadProductImage_some_ne _ _ _ _ (by rw [hdl])
      have hstep : processLoop oracle (product :: rest) i w acc pc sc
          = processLoop oracle rest (i + 1) w'
              (pushProduct acc (resolvedCategory product.category)
                { formatProduct product (resolvedCategory product.category)
                    (bucketOf acc (resolvedCategory product.category)).length with
                  localImage := some l })
              (pc + 1) (sc + 1) := by
        simp only [processLoop, hdl]
      rw [hstep]
      have hacc' : ∀ p,
          p ∈ (pushProduct acc (resolvedCategory product.category)
              { formatProduct product (resolvedCategory product.category)
                  (bucketOf acc (resolvedCategory product.category)).length with
                localImage := some l }).cleansers ∨
          p ∈ (pushProduct acc (resolvedCategory product.category)
              { formatProduct product (resolvedCategory product.category)
                  (bucketOf acc (resolvedCategory product.category)).length with
                localImage := some l }).moisturizers ∨
          p ∈ (pushProduct acc (resolvedCategory product.category)
              { formatProduct product (resolvedCategory product.category)
                  (bucketOf acc (resolvedCategory product.category)).length with
                localImage := some l }).treatments →
          ∃ l2, p.localImage = some l2 ∧ l2 ≠ [] := by
        intro p hp
        rcases mem_pushProduct _ _ _ _ hp with hold | hnew
        · exact hacc p hold
        · subst hnew
          exact ⟨l, rfl, hl⟩
      obtain ⟨h1, h2, h3⟩ := ih (i + 1) w' _ (pc + 1) (sc + 1) hacc'
      refine ⟨h1, by rw [h2]; simp; omega, ?_⟩
      rw [bucketsTotal_push] at h3
      omega
    | none =>
      have hstep : processLoop oracle (product :: rest) i w acc pc sc
          = processLoop oracle rest (i + 1) w' acc (pc + 1) sc := by
        simp only [processLoop, hdl]
      rw [hstep]
      obtain ⟨h1, h2, h3⟩ := ih (i + 1) w' acc (pc + 1) sc hacc
      exact ⟨h1, by rw [h2]; simp; omega, h3⟩

theorem directImageUrlOf_thrown (image : List Char) (bg : AxiosPostResult) (dl : Bool) :
    directImageUrlOf image { page := .thrown, bg := bg, dlOk := dl } = image := by
  unfold directImageUrlOf
  split <;> rfl

theorem downloadProductImage_bg_ok (image b64 : List Char) (dl : Bool) (w : World)
    (himg : image ≠ []) (hw : w.bgAvailable = true) :
    downloadProductImage image { page := .thrown, bg := .resp 200 true b64, dlOk := dl } w
      = (some (bgRemovedPath w.now),
         writeFile (ensureDirW w) (bgRemovedPath w.now) (stripDataUriPre b64)) := by
  have hie : image.isEmpty = false := by
    cases image with
    | nil => exact absurd rfl himg
    | cons c cs => rfl
  simp [downloadProductImage, directImageUrlOf_thrown, hie, removeImageBackground, hw]
theorem jsIndexOf_cons (x : Char) (xs : List Char) (c : Char) :
    jsIndexOf (x :: xs) c
      = if x = c then 0 else (if jsIndexOf xs c = -1 then -1 else jsIndexOf xs c + 1) := rfl

theorem jsLastIndexOf_cons (x : Char) (xs : List Char) (c : Char) :
    jsLastIndexOf (x :: xs) c
      = if jsLastIndexOf xs c ≠ -1 then jsLastIndexOf xs c + 1
        else if x = c then 0 else -1 := rfl

theorem jsIndexOf_not_mem (c : Char) : ∀ (l : List Char), c ∉ l → jsIndexOf l c = -1 := by
  intro l
  induction l with
  | nil => intro _; rfl
  | cons x xs ih =>
    intro h
    have hx : ¬(x = c) := fun he => h (he ▸ List.mem_cons_self x xs)
    have hxs := ih (fun hm => h (List.mem_cons_of_mem x hm))
    simp [jsIndexOf, hx, hxs]

theorem jsIndexOf_append (c : Char) (r : List Char) :
    ∀ (a : List Char), c ∉ a → jsIndexOf (a ++ c :: r) c = a.length := by
  intro a
  induction a with
  | nil => intro _; simp [jsIndexOf]
  | cons x xs ih =>
    intro ha
    have hx : ¬(x = c) := fun he => ha (he ▸ List.mem_cons_self x xs)
    have hxs := ih (fun hm => ha (List.mem_cons_of_mem x hm))
    rw [List.cons_append, jsIndexOf_cons, if_neg hx, hxs, List.length_cons]
    have hne : ¬((xs.length : Int) = -1) := by omega
    rw [if_neg hne]
    omega

theorem jsLastIndexOf_not_mem (c : Char) : ∀ (l : List Char), c ∉ l → jsLastIndexOf l c = -1 := by
  intro l
  induction l with
  | nil => intro _; rfl
  | cons x xs ih =>
    intro h
    have hx : ¬(x = c) := fun he => h (he ▸ List.mem_cons_self x xs)
    have hxs := ih (fun hm => h (List.mem_cons_of_mem x hm))
    simp [jsLastIndexOf, hx, hxs]

theorem jsLastIndexOf_append (c : Char) (l₂ : List Char) (h : jsLastIndexOf l₂ c = -1) :
    ∀ (l₁ : List Char), jsLastIndexOf (l₁ ++ l₂) c = jsLastIndexOf l₁ c := by
  intro l₁
  induction l₁ with
  | nil => simpa using h
  | cons x xs ih => simp [jsLastIndexOf, ih]

theorem jsLastIndexOf_snoc (c : Char) :
    ∀ (init : List Char), jsLastIndexOf (init ++ [c]) c = init.length := by
  intro init
  induction init with
  | nil => simp [jsLastIndexOf]
  | cons x xs ih =>
    rw [List.cons_append, jsLastIndexOf_cons, ih, List.length_cons]
    have hne : ((xs.length : Int)) ≠ -1 := by omega
    rw [if_pos hne]
    omega

end SkinAnalysis


namespace HairAnalysis

theorem processRecsGo_length (oracle : Nat → HairOracle) :
    ∀ (recs : List HairRec) (i : Nat),
      (processRecsGo oracle recs i).length = recs.length := by
  intro recs
  induction recs with
  | nil => intro i; rfl
  | cons rec rest ih =>
    intro i
    simp [processRecsGo, ih]

theorem processRecommendations_length (recs : List HairRec) (oracle : Nat → HairOracle) :
    (processRecommendations recs oracle).length = recs.length :=
  processRecsGo_length oracle recs 0

end HairAnalysis

/-! ## Claims -/

namespace Claims

open JsStr SkinAnalysis HairAnalysis

/-- Claim C2: once a `removeImageBackground` call fails with a
connection-level error, the availability flag becomes false, and along any
following sequence of service interactions containing no successful health
probe every `removeImageBackground` call returns null without attempting
the network request and the flag stays false; a `checkServerHealth` call
answered with HTTP 200 resets the flag to true. -/
theorem claim_C2 (w : World) (hw : w.bgAvailable = true) (url : List Char)
    (tr : List Event) (hnp : ∀ e ∈ tr, healthSuccess e = false) :
    (removeImageBackground url (.err true) w).result = none ∧
    (removeImageBackground url (.err true) w).world.bgAvailable = false ∧
    (∀ log ∈ (runTrace (removeImageBackground url (.err true) w).world tr).2,
        log.isRemove = true → log.result = none ∧ log.attempted = false) ∧
    (runTrace (removeImageBackground url (.err true) w).world tr).1.bgAvailable = false ∧
    (∀ w' : World, (checkServerHealth (.resp 200) w').2.bgAvailable = true) := by
  have h1 : removeImageBackground url (.err true) w =
      { result := none, world := { w with bgAvailable := false }, attempted := true } := by
    simp [removeImageBackground, hw]
  have h2 := runTrace_unavailable tr (removeImageBackground url (.err true) w).world
    (by rw [h1]) hnp
  exact ⟨by rw [h1], by rw [h1], h2.2, h2.1, fun w' => by simp [checkServerHealth]⟩

/-- Witness for C2 at a concrete world and trace. -/
theorem claim_C2_witness :
    (runTrace (removeImageBackground "u".data (.err true) ⟨true, [], [], 5⟩).world
        [Event.removeCall "v".data (.resp 200 true "A".data)]).1.bgAvailable = false :=
  (claim_C2 ⟨true, [], [], 5⟩ rfl "u".data
    [Event.removeCall "v".data (.resp 200 true "A".data)] (by decide)).2.2.2.1

/-- Claim C3: an HTTP-level failure of the background-removal call (a
response without the success flag, or a non-200 / non-connection error)
returns null, leaves the world (in particular the availability flag)
unchanged, and the next call still attempts the network request. -/
theorem claim_C3 (url : List Char) (net : AxiosPostResult) (w : World)
    (hw : w.bgAvailable = true) (hf : httpLevelFailure net = true) :
    removeImageBackground url net w = { result := none, world := w, attempted := true } ∧
    (∀ (url' : List Char) (net' : AxiosPostResult),
        (removeImageBackground url' net' (removeImageBackground url net w).world).attempted
          = true) := by
  have h1 : removeImageBackground url net w =
      { result := none, world := w, attempted := true } := by
    cases net with
    | resp status success b64 =>
      have hb : (status == 200 && success) = false := by
        cases hb : (status == 200 && success) with
        | false => rfl
        | true => simp [httpLevelFailure, hb] at hf
      simp [removeImageBackground, hw, hb]
    | err isConn =>
      have : isConn = false := by simpa [httpLevelFailure] using hf
      subst this
      simp [removeImageBackground, hw]
  refine ⟨h1, fun url' net' => ?_⟩
  rw [h1]
  cases net' with
  | resp status success b64 =>
    by_cases hs : (status == 200 && success) = true <;>
      simp [removeImageBackground, hw, hs]
  | err isConn => cases isConn <;> simp [removeImageBackground, hw]

/-- Witness for C3: a concrete 500 response does not flip the flag. -/
theorem claim_C3_witness :
    removeImageBackground "u".data (.resp 500 false []) ⟨true, [], [], 7⟩
      = { result := none, world := ⟨true, [], [], 7⟩, attempted := true } :=
  (claim_C3 "u".data (.resp 500 false []) ⟨true, [], [], 7⟩ rfl (by decide)).1


/-- Claim C5: the retailer search deduplicates the candidates of the three
pattern scans, resolves relative URLs against the retailer origin, and
returns the first candidate in collection order; a non-200 status, a
thrown request, or no match yields null. -/
theorem claim_C5 (p1 p2 p3 : List (List Char)) :
    searchProductOnLookFantastic (.resp 200 p1 p2 p3)
      = ((p1 ++ p2 ++ p3).head?).map makeAbsoluteLF
    ∧ (∀ status : Nat, status ≠ 200 → searchProductOnLookFantastic (.resp status p1 p2 p3) = none)
    ∧ searchProductOnLookFantastic .thrown = none
    ∧ (dedup (p1 ++ p2 ++ p3)).Nodup := by
  refine ⟨?_, fun status hs => by simp [searchProductOnLookFantastic, hs], rfl, dedup_nodup _⟩
  have h1 : searchProductOnLookFantastic (.resp 200 p1 p2 p3)
      = ((dedup (p1 ++ p2 ++ p3)).map makeAbsoluteLF).head? := by
    simp only [searchProductOnLookFantastic, ne_eq, not_true_eq_false, if_false]
    cases (dedup (p1 ++ p2 ++ p3)).map makeAbsoluteLF <;> rfl
  rw [h1, List.head?_map, dedup_head]

/-- Witness for C5: concrete pattern-scan results, including a duplicate
and a relative URL. -/
theorem claim_C5_witness :
    searchProductOnLookFantastic
        (.resp 200 ["/a/products/1".data] ["/a/products/1".data] ["/b/products/2".data])
      = some "https://www.lookfantastic.com/a/products/1".data :=
  by rw [(claim_C5 ["/a/products/1".data] ["/a/products/1".data] ["/b/products/2".data]).1]; rfl

/-- Claim C6 counterexample: the claim says every URL containing "banner"
is filtered out, but the code filters "icon" / "thumb" / "logo"; a sole
banner candidate is returned, not dropped. -/
theorem claim_C6_cex :
    getProductImageFromLookFantastic
        (.resp 200 none ["https://static.thcdn.com/images/large/banner.jpg".data] [] [])
      = some "https://static.thcdn.com/images/large/banner.jpg".data
    ∧ includesSub "https://static.thcdn.com/images/large/banner.jpg".data "banner".data
        = true := by
  exact ⟨by rfl, by rfl⟩

/-- Claim C6 (amended): the detail-page scan collects the candidates of the
ordered patterns, deduplicates, filters out every URL containing "icon",
"thumb" or "logo" (not "banner"), and returns the first survivor in
collection order; a non-200 status or thrown request yields null. -/
theorem claim_C6 (mainMatch : Option (List Char)) (p2 p3 p4 : List (List Char)) :
    getProductImageFromLookFantastic (.resp 200 mainMatch p2 p3 p4)
      = (((match mainMatch with | some u => [u] | none => []) ++ p2 ++ p3 ++ p4).filter
          keepImageUrl).head?
    ∧ (∀ u, getProductImageFromLookFantastic (.resp 200 mainMatch p2 p3 p4) = some u →
        includesSub u "icon".data = false ∧ includesSub u "thumb".data = false ∧
        includesSub u "logo".data = false)
    ∧ (∀ status : Nat, status ≠ 200 →
        getProductImageFromLookFantastic (.resp status mainMatch p2 p3 p4) = none)
    ∧ getProductImageFromLookFantastic .thrown = none := by
  have h1 : getProductImageFromLookFantastic (.resp 200 mainMatch p2 p3 p4)
      = (((match mainMatch with | some u => [u] | none => []) ++ p2 ++ p3 ++ p4).filter
          keepImageUrl).head? := by
    have h0 : getProductImageFromLookFantastic (.resp 200 mainMatch p2 p3 p4)
        = ((dedup ((match mainMatch with | some u => [u] | none => []) ++ p2 ++ p3 ++ p4)).filter
            keepImageUrl).head? := by
      simp only [getProductImageFromLookFantastic, ne_eq, not_true_eq_false, if_false]
      cases (dedup ((match mainMatch with | some u => [u] | none => []) ++ p2 ++ p3 ++ p4)).filter
          keepImageUrl <;> rfl
    rw [h0, dedup_filter_head]
  refine ⟨h1, fun u hu => ?_, fun status hs => by simp [getProductImageFromLookFantastic, hs], rfl⟩
  rw [h1] at hu
  have hk : keepImageUrl u = true :=
    List.of_mem_filter (List.mem_of_mem_head? (Option.mem_def.mpr hu))
  simp only [keepImageUrl, Bool.and_eq_true, Bool.not_eq_true'] at hk
  exact ⟨hk.1.1, hk.1.2, hk.2⟩

/-- Witness for C6 at concrete scan results: a "logo" URL is skipped and
the next candidate returned. -/
theorem claim_C6_witness :
    getProductImageFromLookFantastic
        (.resp 200 (some "https://static.thcdn.com/x/logo.jpg".data)
          ["https://static.thcdn.com/images/large/p.jpg".data] [] [])
      = some "https://static.thcdn.com/images/large/p.jpg".data := by
  rw [(claim_C6 (some "https://static.thcdn.com/x/logo.jpg".data)
    ["https://static.thcdn.com/images/large/p.jpg".data] [] []).1]
  rfl

/-- Claim C7: when the retailer tier yields an image URL it is returned and
the Google image search is never invoked; when it yields nothing (no
product URL, or a product URL but no extracted image), the Google search is
invoked exactly once and its result (first surviving URL or null)
determines the outcome. -/
theorem claim_C7 (oS : SearchFetch) (oI : ImageFetch) (oG : GoogleFetch) :
    (∀ pu iu, searchProductOnLookFantastic oS = some pu →
        getProductImageFromLookFantastic oI = some iu →
        findProductImageFallback oS oI oG
          = { imageUrl := some iu, productUrl := some pu, googleCalls := 0 })
    ∧ (searchProductOnLookFantastic oS = none →
        findProductImageFallback oS oI oG
          = { imageUrl := searchProductOnGoogle oG, productUrl := none, googleCalls := 1 })
    ∧ (∀ pu, searchProductOnLookFantastic oS = some pu →
        getProductImageFromLookFantastic oI = none →
        findProductImageFallback oS oI oG
          = { imageUrl := searchProductOnGoogle oG, productUrl := none, googleCalls := 1 })
    ∧ (∀ matchList : List (List Char), matchList ≠ [] →
        searchProductOnGoogle (.resp 200 matchList)
          = (matchList.filter keepGoogleUrl).head?) := by
  refine ⟨fun pu iu hs hi => ?_, fun hs => ?_, fun pu hs hi => ?_, fun ml hml => ?_⟩
  · simp [findProductImageFallback, hs, hi]
  · simp only [findProductImageFallback, hs]
    cases searchProductOnGoogle oG <;> rfl
  · simp only [findProductImageFallback, hs, hi]
    cases searchProductOnGoogle oG <;> rfl
  · have hie : ml.isEmpty = false := by
      cases ml with
      | nil => exact absurd rfl hml
      | cons x xs => rfl
    simp only [searchProductOnGoogle, ne_eq, not_true_eq_false, if_false, hie,
      Bool.false_eq_true]
    cases ml.filter keepGoogleUrl <;> rfl

/-- Witness for C7: concrete outcomes where the retailer search fails and
Google is consulted once. -/
theorem claim_C7_witness :
    findProductImageFallback .thrown .thrown
        (.resp 200 ["https://img.example.com/shampoo.jpg".data])
      = { imageUrl := some "https://img.example.com/shampoo.jpg".data
        , productUrl := none, googleCalls := 1 } := by
  rw [(claim_C7 .thrown .thrown
    (.resp 200 ["https://img.example.com/shampoo.jpg".data])).2.1 rfl]
  rfl


/-- Claim C8: `parseGeminiResponse` extracts the substring between the
first `[` and the last `]` (inclusive) and JSON-parses it; when the text
has no such region, or the extracted substring fails to parse, it returns
null instead of throwing. -/
theorem claim_C8 (parseJson : List Char → Option (List RawRec)) (a m b : List Char)
    (ha : '[' ∉ a) (hb : ']' ∉ b) :
    parseGeminiResponse parseJson (a ++ '[' :: (m ++ ']' :: b))
      = (parseJson ('[' :: (m ++ [']']))).map (List.map ensureUrlField)
    ∧ (∀ text : List Char, '[' ∉ text → parseGeminiResponse parseJson text = none)
    ∧ (∀ text : List Char, ']' ∉ text → parseGeminiResponse parseJson text = none)
    ∧ (parseJson ('[' :: (m ++ [']'])) = none →
        parseGeminiResponse parseJson (a ++ '[' :: (m ++ ']' :: b)) = none) := by
  have hmain : parseGeminiResponse parseJson (a ++ '[' :: (m ++ ']' :: b))
      = (parseJson ('[' :: (m ++ [']']))).map (List.map ensureUrlField) := by
    have hstart : jsIndexOf (a ++ '[' :: (m ++ ']' :: b)) '[' = a.length :=
      jsIndexOf_append '[' (m ++ ']' :: b) a ha
    have hshape : a ++ '[' :: (m ++ ']' :: b) = ((a ++ '[' :: m) ++ [']']) ++ b := by
      simp
    have hlast : jsLastIndexOf (a ++ '[' :: (m ++ ']' :: b)) ']'
        = (a.length + m.length + 1 : Int) := by
      rw [hshape,
        jsLastIndexOf_append ']' b (jsLastIndexOf_not_mem ']' b hb) ((a ++ '[' :: m) ++ [']']),
        jsLastIndexOf_snoc ']' (a ++ '[' :: m)]
      push_cast [List.length_append, List.length_cons]
      ring
    have hcond : (jsIndexOf (a ++ '[' :: (m ++ ']' :: b)) '[' ≥ 0 ∧
        jsLastIndexOf (a ++ '[' :: (m ++ ']' :: b)) ']' + 1
          > jsIndexOf (a ++ '[' :: (m ++ ']' :: b)) '[') := by
      rw [hstart, hlast]; omega
    have hdiff : ((jsLastIndexOf (a ++ '[' :: (m ++ ']' :: b)) ']' + 1)
        - jsIndexOf (a ++ '[' :: (m ++ ']' :: b)) '[').toNat = m.length + 2 := by
      rw [hstart, hlast]; omega
    have hdropn : (jsIndexOf (a ++ '[' :: (m ++ ']' :: b)) '[').toNat = a.length := by
      rw [hstart]; omega
    have hsub : ((a ++ '[' :: (m ++ ']' :: b)).drop a.length).take (m.length + 2)
        = '[' :: (m ++ [']']) := by
      rw [List.drop_left]
      have h2 : m.length + 2 = (m.length + 1) + 1 := by ring
      rw [h2, List.take_succ_cons]
      have h3 : ('[' : Char) :: (m ++ List.take 1 (']' :: b)) = '[' :: (m ++ [']']) := by
        simp [List.take_succ_cons]
      rw [← h3, List.take_append 1]
    simp only [parseGeminiResponse, if_pos hcond, hdiff, hdropn, hsub]
    cases parseJson ('[' :: (m ++ [']'])) <;> rfl
  refine ⟨hmain, fun text ht => ?_, fun text ht => ?_, fun hp => by rw [hmain, hp]; rfl⟩
  · have h1 : jsIndexOf text '[' = -1 := jsIndexOf_not_mem '[' text ht
    have hcond : ¬(jsIndexOf text '[' ≥ 0 ∧
        jsLastIndexOf text ']' + 1 > jsIndexOf text '[') := by
      rw [h1]; omega
    simp only [parseGeminiResponse, if_neg hcond]
  · have h1 : jsLastIndexOf text ']' = -1 := jsLastIndexOf_not_mem ']' text ht
    have hcond : ¬(jsIndexOf text '[' ≥ 0 ∧
        jsLastIndexOf text ']' + 1 > jsIndexOf text '[') := by
      rw [h1]; omega
    simp only [parseGeminiResponse, if_neg hcond]

/-- Witness for C8 at a concrete response text and JSON.parse oracle. -/
theorem claim_C8_witness :
    parseGeminiResponse
        (fun s => if s = "[1]".data then some [{ url := none, product_url := none }] else none)
        "x[1]y".data
      = some [{ url := some none, product_url := none }] := by
  have h := (claim_C8
    (fun s => if s = "[1]".data then some [{ url := none, product_url := none }] else none)
    "x".data "1".data "y".data (by decide) (by decide)).1
  have hform : ("x".data ++ '[' :: ("1".data ++ ']' :: "y".data)) = "x[1]y".data := by decide
  rw [hform] at h
  rw [h]
  rfl


/-- Claim C9: persistence paths embed the `Date.now()` timestamp, so calls
at distinct timestamps return distinct paths (no deduplication); every
persisted path lies under the `products/` directory; directory creation is
idempotent; and a successful background-removal call returns exactly the
timestamped path. -/
theorem claim_C9 (t1 t2 : Nat) (h : t1 ≠ t2) :
    bgRemovedPath t1 ≠ bgRemovedPath t2 ∧
    productDownloadPath t1 ≠ productDownloadPath t2 ∧
    (∀ t : Nat, ∃ rest, bgRemovedPath t = productsDir ++ rest) ∧
    (∀ t : Nat, ∃ rest, productDownloadPath t = productsDir ++ rest) ∧
    (∀ w : World, ensureDirW (ensureDirW w) = ensureDirW w) ∧
    (∀ (url b64 : List Char) (w : World), w.bgAvailable = true →
        (removeImageBackground url (.resp 200 true b64) w).result
          = some (bgRemovedPath w.now)) := by
  refine ⟨?_, ?_,
    fun t => ⟨"bg_removed_".data ++ natChars t ++ ".png".data,
      by simp [bgRemovedPath, List.append_assoc]⟩,
    fun t => ⟨"product_".data ++ natChars t ++ ".jpg".data,
      by simp [productDownloadPath, List.append_assoc]⟩, ?_, ?_⟩
  · intro he
    apply h
    apply natChars_injective
    simp only [bgRemovedPath] at he
    exact List.append_cancel_left (List.append_cancel_right he)
  · intro he
    apply h
    apply natChars_injective
    simp only [productDownloadPath] at he
    exact List.append_cancel_left (List.append_cancel_right he)
  · intro w
    by_cases hd : productsDir ∈ w.dirs
    · simp [ensureDirW, hd]
    · simp [ensureDirW, hd]
  · intro url b64 w hw
    simp [removeImageBackground, hw]

/-- Witness for C9 at two concrete timestamps. -/
theorem claim_C9_witness : bgRemovedPath 1 ≠ bgRemovedPath 2 :=
  (claim_C9 1 2 (by decide)).1

/-- Claim C10: the category of a recommendation, lowercased with a missing
or null category defaulting to the empty string, is routed to exactly one
bucket by substring matching — "clean" to cleansers, else "moistur" or
"cream" to moisturizers, else (including missing, empty or unrecognized
categories) to treatments — and a product is never rejected because of its
category: a single-product batch whose image resolution succeeds always
yields one output product, whatever the category. -/
theorem claim_C10 (category : Option (List Char)) :
    (includesSub (toLowerJS (jsOr category [])) "clean".data = true →
      resolvedCategory category = .cleansers) ∧
    (includesSub (toLowerJS (jsOr category [])) "clean".data = false →
      (includesSub (toLowerJS (jsOr category [])) "moistur".data = true ∨
       includesSub (toLowerJS (jsOr category [])) "cream".data = true) →
      resolvedCategory category = .moisturizers) ∧
    (includesSub (toLowerJS (jsOr category [])) "clean".data = false →
      includesSub (toLowerJS (jsOr category [])) "moistur".data = false →
      includesSub (toLowerJS (jsOr category [])) "cream".data = false →
      resolvedCategory category = .treatments) ∧
    resolvedCategory none = .treatments ∧
    resolvedCategory (some []) = .treatments ∧
    (∀ rec : SkinRec,
      bucketsTotal (processGeminiRecommendations [rec]
        (fun _ => { page := .thrown, bg := .resp 200 true "QUJD".data, dlOk := true })
        { bgAvailable := true, dirs := [], files := [], now := 0 }).1 = 1) := by
  refine ⟨fun h1 => ?_, fun h1 h2 => ?_, fun h1 h2 h3 => ?_, rfl, rfl, fun rec => ?_⟩
  · simp [resolvedCategory, h1]
  · rcases h2 with h2 | h2 <;> simp [resolvedCategory, h1, h2]
  · simp [resolvedCategory, h1, h2, h3]
  · have himg : (formatProduct rec (resolvedCategory rec.category) 0).image ≠ [] := by
      simp only [formatProduct]
      exact jsOr_ne _ _ (findImageForProduct_ne rec)
    have hload := downloadProductImage_bg_ok
      (formatProduct rec (resolvedCategory rec.category) 0).image "QUJD".data true
      { bgAvailable := true, dirs := [], files := [], now := 0 } himg rfl
    have hempty : (bucketOf ({ cleansers := [], moisturizers := [], treatments := [] } :
        Recommendations) (resolvedCategory rec.category)).length = 0 := by
      cases resolvedCategory rec.category <;> rfl
    simp only [processGeminiRecommendations, List.isEmpty_cons, processLoop, hempty, hload,
      Bool.false_eq_true, if_false]
    rw [bucketsTotal_push]
    rfl

/-- Witness for C10: a recommendation with an unrecognized category lands
in the treatments bucket and is not rejected. -/
theorem claim_C10_witness :
    resolvedCategory (some "mystery-goo".data) = .treatments :=
  (claim_C10 (some "mystery-goo".data)).2.2.1 (by decide) (by decide) (by decide)


/-- Claim C1 counterexample: the hair-flow orchestrator emits a product
whose image resolution failed entirely — it stays in the output list with
the placeholder image reference and no local image, instead of being
dropped. -/
theorem claim_C1_cex :
    (HairAnalysis.processRecommendations
        [{ name := some "X Shampoo".data, brand := some "X".data,
           type' := some "shampoo".data, price_estimate := some "9".data,
           reason := some "r".data }]
        (fun _ => { lfSearch := .thrown, lfImage := .thrown, google := .thrown,
                    bg := .thrown })).map (fun p => (p.localImage, p.image))
      = [(none, "placeholder".data)] := by
  rfl

/-- Claim C1 (amended): in the skin flow every product in the output
buckets carries a non-empty local image path and the bucket total equals
the success count out of `recs.length` attempts (failed products are
dropped); the hair flow instead emits every recommendation (output length
always equals input length), with a placeholder when resolution failed. -/
theorem claim_C1 (recs : List SkinRec) (oracle : Nat → SkinOracle) (w : World) :
    (∀ p, p ∈ (processGeminiRecommendations recs oracle w).1.cleansers ∨
          p ∈ (processGeminiRecommendations recs oracle w).1.moisturizers ∨
          p ∈ (processGeminiRecommendations recs oracle w).1.treatments →
        ∃ l, p.localImage = some l ∧ l ≠ []) ∧
    (processGeminiRecommendations recs oracle w).2.2.1 = recs.length ∧
    bucketsTotal (processGeminiRecommendations recs oracle w).1
      = (processGeminiRecommendations recs oracle w).2.2.2 ∧
    (∀ (hrecs : List HairRec) (horacle : Nat → HairOracle),
        (processRecommendations hrecs horacle).length = hrecs.length) := by
  by_cases hre : recs.isEmpty = true
  · have hnil : recs = [] := by
      cases recs with
      | nil => rfl
      | cons x xs => simp at hre
    subst hnil
    refine ⟨?_, rfl, rfl, fun hrecs horacle => processRecommendations_length hrecs horacle⟩
    intro p hp
    simp [processGeminiRecommendations] at hp
  · obtain ⟨h1, h2, h3⟩ := processLoop_spec oracle recs 0 w
      { cleansers := [], moisturizers := [], treatments := [] } 0 0
      (fun p hp => by simp at hp)
    have heq : processGeminiRecommendations recs oracle w
        = processLoop oracle recs 0 w
            { cleansers := [], moisturizers := [], treatments := [] } 0 0 := by
      simp [processGeminiRecommendations, hre]
    rw [heq]
    refine ⟨h1, by rw [h2]; omega, ?_,
      fun hrecs horacle => processRecommendations_length hrecs horacle⟩
    have hz : bucketsTotal { cleansers := [], moisturizers := [], treatments := [] } = 0 := rfl
    omega

/-- Witness for C1 at a concrete one-product batch whose resolution
succeeds. -/
theorem claim_C1_witness :
    ∃ l, (({ id := 1001, name := "N".data, brand := "B".data, description := "N".data,
             price := "$5".data, image := "http://i.jpg".data,
             localImage := some (bgRemovedPath 0), reason := "r".data, url := [] } :
           SkinAnalysis.ProductRecommendation)).localImage = some l ∧ l ≠ [] :=
  (claim_C1
    [{ category := some "cleanser".data, name := some "N".data, brand := some "B".data,
       price := some "5".data, reason := some "r".data, url := none, product_url := none,
       image_url := some "http://i.jpg".data }]
    (fun _ => { page := .thrown, bg := .resp 200 true "QUJD".data, dlOk := true })
    { bgAvailable := true, dirs := [], files := [], now := 0 }).1
    _ (Or.inl (by decide))

/-- Claim C4 counterexample: in the hair flow a failed background-removal
attempt yields the original remote URL back — nothing is downloaded or
persisted, and the returned value is not a local path. -/
theorem claim_C4_cex :
    downloadAndProcessImage "https://static.thcdn.com/images/large/x.jpg".data 3000
        (.resp false [])
      = some "https://static.thcdn.com/images/large/x.jpg".data
    ∧ hasPre "https://static.thcdn.com/images/large/x.jpg".data documentDirectory
        = false := by
  exact ⟨rfl, by decide⟩

/-- Claim C4 (amended): in the skin flow, when the background-removal
attempt fails the orchestrator downloads the resolved image URL directly,
persists it under `products/`, and still resolves the product with a local
path, dropping it only when the direct download also fails; in the hair
flow a failed background-removal attempt instead returns the original
remote URL unchanged, with nothing downloaded or persisted. -/
theorem claim_C4 (imageUrl : List Char) (o : SkinOracle) (w : World)
    (hne : (directImageUrlOf imageUrl o).isEmpty = false)
    (hbg : (removeImageBackground (directImageUrlOf imageUrl o) o.bg w).result = none) :
    (o.dlOk = true →
      (downloadProductImage imageUrl o w).1
        = some (productDownloadPath
            (removeImageBackground (directImageUrlOf imageUrl o) o.bg w).world.now) ∧
      (productDownloadPath
          (removeImageBackground (directImageUrlOf imageUrl o) o.bg w).world.now,
        directImageUrlOf imageUrl o) ∈ (downloadProductImage imageUrl o w).2.files ∧
      ∃ rest, productDownloadPath
          (removeImageBackground (directImageUrlOf imageUrl o) o.bg w).world.now
        = productsDir ++ rest) ∧
    (o.dlOk = false → (downloadProductImage imageUrl o w).1 = none) ∧
    (∀ (u : List Char) (pid : Nat) (ob : BgApiOutcome),
        (∀ succ b64, ob = .resp succ b64 → (succ && !b64.isEmpty) = false) →
        downloadAndProcessImage u pid ob = some u) := by
  have hne' : (!(directImageUrlOf imageUrl o).isEmpty) = true := by rw [hne]; rfl
  refine ⟨fun hdl => ?_, fun hdl => ?_, fun u pid ob hob => ?_⟩
  · simp only [downloadProductImage, hne', if_true, hbg, hdl, writeFile]
    refine ⟨trivial, List.mem_cons_self _ _, ?_⟩
    exact ⟨"product_".data ++
      natChars (removeImageBackground (directImageUrlOf imageUrl o) o.bg w).world.now
        ++ ".jpg".data, by simp [productDownloadPath, List.append_assoc]⟩
  · simp only [downloadProductImage, hne', if_true, hbg, hdl]
    rfl
  · cases ob with
    | resp succ b64 =>
      have := hob succ b64 rfl
      simp [downloadAndProcessImage, this]
    | thrown => rfl

/-- Witness for C4: a concrete thrown (non-connection) background-removal
error followed by a successful direct download. -/
theorem claim_C4_witness :
    (downloadProductImage "http://x.jpg".data
        { page := .thrown, bg := .err false, dlOk := true }
        { bgAvailable := true, dirs := [], files := [], now := 4 }).1
      = some (productDownloadPath 4) :=
  ((claim_C4 "http://x.jpg".data { page := .thrown, bg := .err false, dlOk := true }
    { bgAvailable := true, dirs := [], files := [], now := 4 }
    (by decide) (by decide)).1 rfl).1

end Claims
